import Mathlib

/-!
Verification of the QuickShip aggregation engine.

This file is a shallow embedding, in Lean 4, of the Go sources of the
QuickShip repository:

* `pkg/models` — the data model: `ServiceError`, the `Status` string
  constants, `CartSummary`, `FetchResult`, and the backend call shape
  `ServiceFn`;
* `pkg/services` — the three simulated backends (`FetchPriceSimulates`,
  `FetchInventorySimulates`, `FetchPromotionsSimulates`), all built on
  `simulatedCall`, and the registry `ServiceMap`;
* `pkg/aggregator` — `executeService` (the per-worker wrapper) and
  `FanOutAndAggregate` (the fan-out / fan-in engine with its 450 ms shared
  deadline and the per-field fallback policy);
* `main.go` — `GetCartSummary`, the HTTP handler that stamps elapsed time.

Modelling choices, stated once here:

* Go `interface{}` values crossing the result channel become the inductive
  `GoValue`; Go `float64` is modelled by `ℚ` (the only float values in the
  program are the literals 49.99 and 0.00).
* `time`/`context`: `simulatedCall` races a delay against the shared
  deadline (`select` on `time.After(delay)` and `ctx.Done()`). We embed it
  as a pure function of the deadline and the delay that also reports the
  elapsed time of the call: the call completes at `min delay deadline`,
  succeeding when `delay < deadline` and returning `context.DeadlineExceeded`
  otherwise.
* Every backend in the source is a closure over `simulatedCall` determined
  by a per-product delay, a failure flag and a produced value; `ServiceFn`
  records exactly those three parameters.
* The registry is a Go map and the result channel delivers outcomes in
  completion order, so the order in which the fan-in loop drains outcomes
  is arbitrary.  We model a round by a *list* of key/backend pairs whose
  order stands for the drain order; quantifying over permutations of the
  registry quantifies over all drain orders.
* A Go type-assertion failure (`res.Value.(float64)` on a non-float) is a
  panic that aborts the round; the fan-in fold therefore returns
  `Option CartSummary`, with `none` standing for such a panic.
-/

namespace QuickShip

/-- Go `interface{}` values that flow through the result channel: the
simulated backends produce a `float64`, an `int` or a `string`, and a
failed call leaves the value at Go `nil`. -/
inductive GoValue where
  | vfloat (q : ℚ)
  | vint (n : Int)
  | vstr (s : String)
  | vnil
deriving DecidableEq, Repr

/-- Go `error` values that the backends can produce: `context.DeadlineExceeded`
(from `ctx.Err()`), or a backend domain error built with `fmt.Errorf`
(the simulated 503). The aggregator compares errors against
`context.DeadlineExceeded`, which this equality models. -/
inductive GoError where
  | deadlineExceeded
  | backendErr (msg : String)
deriving DecidableEq, Repr

/-- `models.ServiceError`: the structured error attached to a failed fetch. -/
structure ServiceError where
  ServiceKey : String
  Message : String
  Timeout : Bool
  Err : GoError
deriving DecidableEq, Repr

/-- `models.Status` is a string type; these are its four constants. The Go
zero value of the type is the empty string `""`. -/
def StatusSuccess : String := "SUCCESS"

/-- `models.StatusTimeout`. -/
def StatusTimeout : String := "TIMEOUT"

/-- `models.StatusError`. -/
def StatusError : String := "ERROR"

/-- `models.StatusFallback`. -/
def StatusFallback : String := "FALLBACK"

/-- `models.FetchResult`: the per-worker outcome sent over the channel. -/
structure FetchResult where
  Key : String
  Value : GoValue
  Status : String
  Error : Option ServiceError
deriving DecidableEq, Repr

/-- `models.CartSummary`: the aggregated response. Field order and zero
values follow the Go struct (statuses start at the zero value `""`,
`ServiceErrors` starts at `nil` = `[]`). -/
@[ext]
structure CartSummary where
  ProductID : String
  Price : ℚ
  PriceStatus : String
  Stock : Int
  StockStatus : String
  Promotion : String
  PromotionStatus : String
  TotalTimeMs : Int
  ServiceErrors : List ServiceError
deriving DecidableEq, Repr

/-- `models.ServiceFn` is `func(ctx, productID) (interface{}, error)`.
Every backend in `pkg/services` is `simulatedCall` applied to a
per-product delay, failure flag and value; we record those parameters,
which determine the backend's behaviour under any deadline. -/
structure ServiceFn where
  delayMs : String → Nat
  failFlag : String → Bool
  produced : String → GoValue

/-- `services.simulatedCall`: `select` between `time.After(delay)` and
`ctx.Done()`. Returns the elapsed milliseconds of the call together with
its result: when `delay < deadline` the timer fires first and the call
completes (value, or the 503 domain error when `fail` is set); otherwise
the shared deadline fires and the call returns `ctx.Err() =
context.DeadlineExceeded` at the deadline. -/
def simulatedCall (deadlineMs delayMs : Nat) (failFlag : Bool) (value : GoValue) :
    Nat × Except GoError GoValue :=
  if delayMs < deadlineMs then
    (delayMs, if failFlag then Except.error (GoError.backendErr "backend server responded with 503")
              else Except.ok value)
  else
    (deadlineMs, Except.error GoError.deadlineExceeded)

/-- `services.FetchPriceSimulates`: 200 ms, except 500 ms for the SKU
`TEST-SKU-TIMEOUT`; never fails on its own; produces `49.99`. -/
def FetchPriceSimulates : ServiceFn where
  delayMs := fun productID => if productID = "TEST-SKU-TIMEOUT" then 500 else 200
  failFlag := fun _ => false
  produced := fun _ => GoValue.vfloat (49.99 : ℚ)

/-- `services.FetchInventorySimulates`: 400 ms, never fails, produces `120`. -/
def FetchInventorySimulates : ServiceFn where
  delayMs := fun _ => 400
  failFlag := fun _ => false
  produced := fun _ => GoValue.vint 120

/-- `services.FetchPromotionsSimulates`: 50 ms, never fails, produces the
promotion string. -/
def FetchPromotionsSimulates : ServiceFn where
  delayMs := fun _ => 50
  failFlag := fun _ => false
  produced := fun _ => GoValue.vstr "Buy 1 Get 1 Half Off!"

/-- `services.ServiceMap`, as a key/backend association list. The Go map
iterates in arbitrary order; theorems about the shipped registry quantify
over permutations of this list. -/
def ServiceMap : List (String × ServiceFn) :=
  [("price", FetchPriceSimulates),
   ("stock", FetchInventorySimulates),
   ("promotion", FetchPromotionsSimulates)]

/-- The result component of running one backend under a deadline. -/
def runCall (deadlineMs : Nat) (fn : ServiceFn) (productID : String) :
    Except GoError GoValue :=
  (simulatedCall deadlineMs (fn.delayMs productID) (fn.failFlag productID)
    (fn.produced productID)).2

/-- The elapsed milliseconds of running one backend under a deadline. -/
def serviceElapsedMs (deadlineMs : Nat) (fn : ServiceFn) (productID : String) : Nat :=
  (simulatedCall deadlineMs (fn.delayMs productID) (fn.failFlag productID)
    (fn.produced productID)).1

/-- `aggregator.aggregationTimeout` = 450 ms. -/
def aggregationTimeout : Nat := 450

/-- `aggregator.executeService`: runs the backend, and wraps the outcome in
a `FetchResult`. On failure it builds a `ServiceError`; when the error is
`context.DeadlineExceeded` it marks it as a timeout, upgrades the message,
and reports status TIMEOUT, otherwise status ERROR. On success it reports
status SUCCESS. Exactly one result is produced per call. -/
def executeService (deadlineMs : Nat) (key productID : String) (fn : ServiceFn) :
    FetchResult :=
  match runCall deadlineMs fn productID with
  | Except.ok v =>
      { Key := key, Value := v, Status := StatusSuccess, Error := none }
  | Except.error e =>
      if e = GoError.deadlineExceeded then
        { Key := key, Value := GoValue.vnil, Status := StatusTimeout,
          Error := some { ServiceKey := key,
                          Message := "Service execution exceeded the global aggregation timeout",
                          Timeout := true, Err := e } }
      else
        { Key := key, Value := GoValue.vnil, Status := StatusError,
          Error := some { ServiceKey := key,
                          Message := "External service call failed",
                          Timeout := false, Err := e } }

/-- The multiset of outcomes of one aggregation round, in drain order: one
`FetchResult` per registered backend (each worker sends exactly one result
to the buffered channel, and the join goroutine closes the channel after
all workers are done, so the drain loop sees exactly these). -/
def roundOutcomes (registry : List (String × ServiceFn)) (productID : String) :
    List FetchResult :=
  registry.map fun entry => executeService aggregationTimeout entry.1 productID entry.2

/-- The per-field fallback constants from the body of `FanOutAndAggregate`. -/
def fallbackPrice : ℚ := 0

/-- Fallback stock value. -/
def fallbackStock : Int := 0

/-- Fallback promotion message. -/
def fallbackPromotion : String := "No promotions available"

/-- The error-collection step at the top of the fan-in loop: a non-nil
result error is appended to the summary's error list. -/
def appendError (s : CartSummary) (res : FetchResult) : CartSummary :=
  match res.Error with
  | some e => { s with ServiceErrors := s.ServiceErrors ++ [e] }
  | none => s

/-- One iteration of the fan-in loop of `FanOutAndAggregate`: append the
structured error if any, then switch on the key, assigning either the
successful value (through the Go type assertion — `none` models the panic
of an assertion on a value of the wrong dynamic type) or the fallback
constant with status FALLBACK. An unexpected key is logged and discarded. -/
def applyResult (acc : CartSummary) (res : FetchResult) : Option CartSummary :=
  let s := appendError acc res
  if res.Key = "price" then
    if res.Status = StatusSuccess then
      match res.Value with
      | GoValue.vfloat q => some { s with Price := q, PriceStatus := StatusSuccess }
      | _ => none
    else
      some { s with Price := fallbackPrice, PriceStatus := StatusFallback }
  else if res.Key = "stock" then
    if res.Status = StatusSuccess then
      match res.Value with
      | GoValue.vint n => some { s with Stock := n, StockStatus := StatusSuccess }
      | _ => none
    else
      some { s with Stock := fallbackStock, StockStatus := StatusFallback }
  else if res.Key = "promotion" then
    if res.Status = StatusSuccess then
      match res.Value with
      | GoValue.vstr m => some { s with Promotion := m, PromotionStatus := StatusSuccess }
      | _ => none
    else
      some { s with Promotion := fallbackPromotion, PromotionStatus := StatusFallback }
  else
    some s

/-- The summary at the start of the fan-in loop:
`models.CartSummary{ProductID: productID}` with Go zero values elsewhere. -/
def initSummary (productID : String) : CartSummary where
  ProductID := productID
  Price := 0
  PriceStatus := ""
  Stock := 0
  StockStatus := ""
  Promotion := ""
  PromotionStatus := ""
  TotalTimeMs := 0
  ServiceErrors := []

/-- The whole fan-in loop: fold `applyResult` over the drained outcomes. -/
def aggregateFold (rs : List FetchResult) (s : CartSummary) : Option CartSummary :=
  rs.foldlM applyResult s

/-- `aggregator.FanOutAndAggregate`: fan out one worker per registry entry
under the shared 450 ms deadline, drain all outcomes, apply the fallback
policy, and return the summary together with the (always nil) error. The
outer `Option` models a type-assertion panic aborting the round; the inner
`Option GoError` is Go's `error` return value. -/
def FanOutAndAggregate (registry : List (String × ServiceFn)) (productID : String) :
    Option (CartSummary × Option GoError) :=
  match aggregateFold (roundOutcomes registry productID) (initSummary productID) with
  | some s => some (s, none)
  | none => none

/-- Wall-clock duration of one round: the workers run in parallel, the join
goroutine waits for all of them, and draining a buffered channel takes no
simulated time, so the engine returns when the slowest worker finishes. -/
def aggregateElapsedMs (registry : List (String × ServiceFn)) (productID : String) : Nat :=
  (registry.map fun entry => serviceElapsedMs aggregationTimeout entry.2 productID).foldl
    max 0

/-- The HTTP responses `GetCartSummary` can produce, restricted to what the
claims need: a 200 with the JSON-encoded summary, or the 500 issued when the
engine reports an error. -/
inductive HttpResponse where
  | ok (body : CartSummary)
  | internalServerError
deriving DecidableEq, Repr

/-- `main.GetCartSummary`, elapsed-time measurement abstracted into the
`elapsedMs` argument: call the engine; on an engine error answer 500;
otherwise stamp `TotalTimeMs` with the measured elapsed time — the only
field the handler writes — and encode the summary. The outer `Option`
propagates a panic of the engine. -/
def GetCartSummary (registry : List (String × ServiceFn)) (productID : String)
    (elapsedMs : Int) : Option HttpResponse :=
  match FanOutAndAggregate registry productID with
  | none => none
  | some (_, some _) => some HttpResponse.internalServerError
  | some (s, none) => some (HttpResponse.ok { s with TotalTimeMs := elapsedMs })

/-- The summary produced when all three shipped backends succeed: the
literal values from `pkg/services`. -/
def allSuccessSummary (productID : String) : CartSummary where
  ProductID := productID
  Price := (49.99 : ℚ)
  PriceStatus := StatusSuccess
  Stock := 120
  StockStatus := StatusSuccess
  Promotion := "Buy 1 Get 1 Half Off!"
  PromotionStatus := StatusSuccess
  TotalTimeMs := 0
  ServiceErrors := []

/-- The Go type assertion performed by the fan-in loop on `res` succeeds:
either the key requires no assertion (non-success status, or unexpected
key), or the value has the dynamic type the key's assertion demands. -/
def assertOK (res : FetchResult) : Bool :=
  if res.Key = "price" then
    if res.Status = StatusSuccess then
      (match res.Value with | GoValue.vfloat _ => true | _ => false)
    else true
  else if res.Key = "stock" then
    if res.Status = StatusSuccess then
      (match res.Value with | GoValue.vint _ => true | _ => false)
    else true
  else if res.Key = "promotion" then
    if res.Status = StatusSuccess then
      (match res.Value with | GoValue.vstr _ => true | _ => false)
    else true
  else true

/-- The fallback policy for the price field, as the fan-in loop applies it to
the price outcome `res`: on SUCCESS the field carries the produced value with
status SUCCESS, otherwise the fixed fallback `0.00` with status FALLBACK. -/
def priceFieldPolicy (res : FetchResult) (s : CartSummary) : Prop :=
  (res.Status = StatusSuccess →
    s.PriceStatus = StatusSuccess ∧ res.Value = GoValue.vfloat s.Price) ∧
  (res.Status ≠ StatusSuccess →
    s.Price = fallbackPrice ∧ s.PriceStatus = StatusFallback)

/-- The fallback policy for the stock field (fallback `0`). -/
def stockFieldPolicy (res : FetchResult) (s : CartSummary) : Prop :=
  (res.Status = StatusSuccess →
    s.StockStatus = StatusSuccess ∧ res.Value = GoValue.vint s.Stock) ∧
  (res.Status ≠ StatusSuccess →
    s.Stock = fallbackStock ∧ s.StockStatus = StatusFallback)

/-- The fallback policy for the promotion field (fallback message). -/
def promotionFieldPolicy (res : FetchResult) (s : CartSummary) : Prop :=
  (res.Status = StatusSuccess →
    s.PromotionStatus = StatusSuccess ∧ res.Value = GoValue.vstr s.Promotion) ∧
  (res.Status ≠ StatusSuccess →
    s.Promotion = fallbackPromotion ∧ s.PromotionStatus = StatusFallback)

theorem executeService_Key (d : Nat) (k pid : String) (fn : ServiceFn) :
    (executeService d k pid fn).Key = k := by
  unfold executeService
  cases runCall d fn pid with
  | ok v => rfl
  | error e => by_cases h : e = GoError.deadlineExceeded <;> simp [h]

theorem appendError_frame (acc : CartSummary) (res : FetchResult) :
    (appendError acc res).ProductID = acc.ProductID ∧
    (appendError acc res).Price = acc.Price ∧
    (appendError acc res).PriceStatus = acc.PriceStatus ∧
    (appendError acc res).Stock = acc.Stock ∧
    (appendError acc res).StockStatus = acc.StockStatus ∧
    (appendError acc res).Promotion = acc.Promotion ∧
    (appendError acc res).PromotionStatus = acc.PromotionStatus ∧
    (appendError acc res).TotalTimeMs = acc.TotalTimeMs := by
  unfold appendError
  cases res.Error <;> simp

theorem appendError_ServiceErrors (acc : CartSummary) (res : FetchResult) :
    (appendError acc res).ServiceErrors = acc.ServiceErrors ++ res.Error.toList := by
  unfold appendError
  cases res.Error <;> simp [Option.toList]

theorem applyResult_cases (acc : CartSummary) (res : FetchResult) (s : CartSummary)
    (h : applyResult acc res = some s) :
    s.ProductID = acc.ProductID ∧ s.TotalTimeMs = acc.TotalTimeMs ∧
    s.ServiceErrors = acc.ServiceErrors ++ res.Error.toList ∧
    (res.Key ≠ "price" → s.Price = acc.Price ∧ s.PriceStatus = acc.PriceStatus) ∧
    (res.Key ≠ "stock" → s.Stock = acc.Stock ∧ s.StockStatus = acc.StockStatus) ∧
    (res.Key ≠ "promotion" →
      s.Promotion = acc.Promotion ∧ s.PromotionStatus = acc.PromotionStatus) ∧
    (res.Key = "price" → priceFieldPolicy res s) ∧
    (res.Key = "stock" → stockFieldPolicy res s) ∧
    (res.Key = "promotion" → promotionFieldPolicy res s) := by
  obtain ⟨hPID, hPr, hPrS, hSt, hStS, hPm, hPmS, hTT⟩ := appendError_frame acc res
  have hAEerr := appendError_ServiceErrors acc res
  simp only [applyResult] at h
  by_cases hk1 : res.Key = "price"
  · rw [if_pos hk1] at h
    by_cases hs : res.Status = StatusSuccess
    · rw [if_pos hs] at h
      cases hv : res.Value with
      | vfloat q =>
        rw [hv] at h
        injection h with h
        subst h
        exact ⟨hPID, hTT, hAEerr, fun hc => absurd hk1 hc,
          fun _ => ⟨hSt, hStS⟩, fun _ => ⟨hPm, hPmS⟩,
          fun _ => ⟨fun _ => ⟨rfl, hv⟩, fun hns => absurd hs hns⟩,
          fun hc => by rw [hk1] at hc; exact absurd hc (by decide),
          fun hc => by rw [hk1] at hc; exact absurd hc (by decide)⟩
      | vint n => rw [hv] at h; exact Option.noConfusion h
      | vstr m => rw [hv] at h; exact Option.noConfusion h
      | vnil => rw [hv] at h; exact Option.noConfusion h
    · rw [if_neg hs] at h
      injection h with h
      subst h
      exact ⟨hPID, hTT, hAEerr, fun hc => absurd hk1 hc,
        fun _ => ⟨hSt, hStS⟩, fun _ => ⟨hPm, hPmS⟩,
        fun _ => ⟨fun hss => absurd hss hs, fun _ => ⟨rfl, rfl⟩⟩,
        fun hc => by rw [hk1] at hc; exact absurd hc (by decide),
        fun hc => by rw [hk1] at hc; exact absurd hc (by decide)⟩
  · rw [if_neg hk1] at h
    by_cases hk2 : res.Key = "stock"
    · rw [if_pos hk2] at h
      by_cases hs : res.Status = StatusSuccess
      · rw [if_pos hs] at h
        cases hv : res.Value with
        | vint n =>
          rw [hv] at h
          injection h with h
          subst h
          exact ⟨hPID, hTT, hAEerr, fun _ => ⟨hPr, hPrS⟩,
            fun hc => absurd hk2 hc, fun _ => ⟨hPm, hPmS⟩,
            fun hc => absurd hc hk1,
            fun _ => ⟨fun _ => ⟨rfl, hv⟩, fun hns => absurd hs hns⟩,
            fun hc => by rw [hk2] at hc; exact absurd hc (by decide)⟩
        | vfloat q => rw [hv] at h; exact Option.noConfusion h
        | vstr m => rw [hv] at h; exact Option.noConfusion h
        | vnil => rw [hv] at h; exact Option.noConfusion h
      · rw [if_neg hs] at h
        injection h with h
        subst h
        exact ⟨hPID, hTT, hAEerr, fun _ => ⟨hPr, hPrS⟩,
          fun hc => absurd hk2 hc, fun _ => ⟨hPm, hPmS⟩,
          fun hc => absurd hc hk1,
          fun _ => ⟨fun hss => absurd hss hs, fun _ => ⟨rfl, rfl⟩⟩,
          fun hc => by rw [hk2] at hc; exact absurd hc (by decide)⟩
    · rw [if_neg hk2] at h
      by_cases hk3 : res.Key = "promotion"
      · rw [if_pos hk3] at h
        by_cases hs : res.Status = StatusSuccess
        · rw [if_pos hs] at h
          cases hv : res.Value with
          | vstr m =>
            rw [hv] at h
            injection h with h
            subst h
            exact ⟨hPID, hTT, hAEerr, fun _ => ⟨hPr, hPrS⟩,
              fun _ => ⟨hSt, hStS⟩, fun hc => absurd hk3 hc,
              fun hc => absurd hc hk1, fun hc => absurd hc hk2,
              fun _ => ⟨fun _ => ⟨rfl, hv⟩, fun hns => absurd hs hns⟩⟩
          | vfloat q => rw [hv] at h; exact Option.noConfusion h
          | vint n => rw [hv] at h; exact Option.noConfusion h
          | vnil => rw [hv] at h; exact Option.noConfusion h
        · rw [if_neg hs] at h
          injection h with h
          subst h
          exact ⟨hPID, hTT, hAEerr, fun _ => ⟨hPr, hPrS⟩,
            fun _ => ⟨hSt, hStS⟩, fun hc => absurd hk3 hc,
            fun hc => absurd hc hk1, fun hc => absurd hc hk2,
            fun _ => ⟨fun hss => absurd hss hs, fun _ => ⟨rfl, rfl⟩⟩⟩
      · rw [if_neg hk3] at h
        injection h with h
        subst h
        exact ⟨hPID, hTT, hAEerr, fun _ => ⟨hPr, hPrS⟩,
          fun _ => ⟨hSt, hStS⟩, fun _ => ⟨hPm, hPmS⟩,
          fun hc => absurd hc hk1, fun hc => absurd hc hk2,
          fun hc => absurd hc hk3⟩

theorem aggregateFold_base (rs : List FetchResult) (s s1 : CartSummary)
    (h : aggregateFold rs s = some s1) :
    s1.ProductID = s.ProductID ∧ s1.TotalTimeMs = s.TotalTimeMs ∧
    s1.ServiceErrors = s.ServiceErrors ++ rs.filterMap FetchResult.Error := by
  induction rs generalizing s with
  | nil =>
    simp only [aggregateFold, List.foldlM_nil] at h
    injection h with h
    subst h
    simp
  | cons r rs ih =>
    simp only [aggregateFold, List.foldlM_cons, Option.bind_eq_bind,
      Option.bind_eq_some] at h
    obtain ⟨s2, h1, h2⟩ := h
    obtain ⟨p1, p2, p3, _⟩ := applyResult_cases s r s2 h1
    obtain ⟨q1, q2, q3⟩ := ih s2 h2
    refine ⟨q1.trans p1, q2.trans p2, ?_⟩
    rw [q3, p3, List.append_assoc]
    congr 1
    cases hE : r.Error <;> simp [List.filterMap_cons, hE, Option.toList]

theorem aggregateFold_price_frame (rs : List FetchResult) (s s1 : CartSummary)
    (h : aggregateFold rs s = some s1) (hk : ∀ r ∈ rs, r.Key ≠ "price") :
    s1.Price = s.Price ∧ s1.PriceStatus = s.PriceStatus := by
  induction rs generalizing s with
  | nil =>
    simp only [aggregateFold, List.foldlM_nil] at h
    injection h with h
    subst h
    exact ⟨rfl, rfl⟩
  | cons r rs ih =>
    simp only [aggregateFold, List.foldlM_cons, Option.bind_eq_bind,
      Option.bind_eq_some] at h
    obtain ⟨s2, h1, h2⟩ := h
    obtain ⟨-, -, -, hfr, -⟩ := applyResult_cases s r s2 h1
    obtain ⟨e1, e2⟩ := hfr (hk r (List.mem_cons_self r rs))
    obtain ⟨f1, f2⟩ := ih s2 h2 (fun x hx => hk x (List.mem_cons_of_mem r hx))
    exact ⟨f1.trans e1, f2.trans e2⟩

theorem aggregateFold_stock_frame (rs : List FetchResult) (s s1 : CartSummary)
    (h : aggregateFold rs s = some s1) (hk : ∀ r ∈ rs, r.Key ≠ "stock") :
    s1.Stock = s.Stock ∧ s1.StockStatus = s.StockStatus := by
  induction rs generalizing s with
  | nil =>
    simp only [aggregateFold, List.foldlM_nil] at h
    injection h with h
    subst h
    exact ⟨rfl, rfl⟩
  | cons r rs ih =>
    simp only [aggregateFold, List.foldlM_cons, Option.bind_eq_bind,
      Option.bind_eq_some] at h
    obtain ⟨s2, h1, h2⟩ := h
    obtain ⟨-, -, -, -, hfr, -⟩ := applyResult_cases s r s2 h1
    obtain ⟨e1, e2⟩ := hfr (hk r (List.mem_cons_self r rs))
    obtain ⟨f1, f2⟩ := ih s2 h2 (fun x hx => hk x (List.mem_cons_of_mem r hx))
    exact ⟨f1.trans e1, f2.trans e2⟩

theorem aggregateFold_promotion_frame (rs : List FetchResult) (s s1 : CartSummary)
    (h : aggregateFold rs s = some s1) (hk : ∀ r ∈ rs, r.Key ≠ "promotion") :
    s1.Promotion = s.Promotion ∧ s1.PromotionStatus = s.PromotionStatus := by
  induction rs generalizing s with
  | nil =>
    simp only [aggregateFold, List.foldlM_nil] at h
    injection h with h
    subst h
    exact ⟨rfl, rfl⟩
  | cons r rs ih =>
    simp only [aggregateFold, List.foldlM_cons, Option.bind_eq_bind,
      Option.bind_eq_some] at h
    obtain ⟨s2, h1, h2⟩ := h
    obtain ⟨-, -, -, -, -, hfr, -⟩ := applyResult_cases s r s2 h1
    obtain ⟨e1, e2⟩ := hfr (hk r (List.mem_cons_self r rs))
    obtain ⟨f1, f2⟩ := ih s2 h2 (fun x hx => hk x (List.mem_cons_of_mem r hx))
    exact ⟨f1.trans e1, f2.trans e2⟩

theorem filter_eq_single_none_rest (rs : List FetchResult) (p : FetchResult → Bool)
    (r : FetchResult) (hfil : rs.filter p = [r]) (x : FetchResult) (hx : x ∈ rs)
    (hpx : p x = true) : x = r := by
  have : x ∈ rs.filter p := List.mem_filter.mpr ⟨hx, hpx⟩
  rw [hfil] at this
  simpa using this

theorem aggregateFold_price_one (rs : List FetchResult) (s s1 : CartSummary)
    (r : FetchResult) (h : aggregateFold rs s = some s1)
    (hfil : rs.filter (fun x => x.Key == "price") = [r]) :
    priceFieldPolicy r s1 := by
  induction rs generalizing s with
  | nil => simp at hfil
  | cons a rs ih =>
    rw [List.filter_cons] at hfil
    simp only [aggregateFold, List.foldlM_cons, Option.bind_eq_bind,
      Option.bind_eq_some] at h
    obtain ⟨s2, h1, h2⟩ := h
    by_cases ha : a.Key = "price"
    · rw [if_pos (by simp [ha])] at hfil
      have hcons := List.cons_eq_cons.mp hfil
      obtain ⟨rfl, htail⟩ := hcons
      have pol := (applyResult_cases s a s2 h1).2.2.2.2.2.2.1 ha
      have hnone : ∀ x ∈ rs, x.Key ≠ "price" := by
        intro x hx hxk
        have : x ∈ rs.filter (fun x => x.Key == "price") :=
          List.mem_filter.mpr ⟨hx, by simp [hxk]⟩
        rw [htail] at this
        simp at this
      obtain ⟨fr1, fr2⟩ := aggregateFold_price_frame rs s2 s1 h2 hnone
      constructor
      · intro hss
        rw [fr1, fr2]
        exact pol.1 hss
      · intro hns
        rw [fr1, fr2]
        exact pol.2 hns
    · rw [if_neg (by simp [ha])] at hfil
      exact ih s2 h2 hfil

theorem aggregateFold_stock_one (rs : List FetchResult) (s s1 : CartSummary)
    (r : FetchResult) (h : aggregateFold rs s = some s1)
    (hfil : rs.filter (fun x => x.Key == "stock") = [r]) :
    stockFieldPolicy r s1 := by
  induction rs generalizing s with
  | nil => simp at hfil
  | cons a rs ih =>
    rw [List.filter_cons] at hfil
    simp only [aggregateFold, List.foldlM_cons, Option.bind_eq_bind,
      Option.bind_eq_some] at h
    obtain ⟨s2, h1, h2⟩ := h
    by_cases ha : a.Key = "stock"
    · rw [if_pos (by simp [ha])] at hfil
      obtain ⟨rfl, htail⟩ := List.cons_eq_cons.mp hfil
      have pol := (applyResult_cases s a s2 h1).2.2.2.2.2.2.2.1 ha
      have hnone : ∀ x ∈ rs, x.Key ≠ "stock" := by
        intro x hx hxk
        have : x ∈ rs.filter (fun x => x.Key == "stock") :=
          List.mem_filter.mpr ⟨hx, by simp [hxk]⟩
        rw [htail] at this
        simp at this
      obtain ⟨fr1, fr2⟩ := aggregateFold_stock_frame rs s2 s1 h2 hnone
      constructor
      · intro hss
        rw [fr1, fr2]
        exact pol.1 hss
      · intro hns
        rw [fr1, fr2]
        exact pol.2 hns
    · rw [if_neg (by simp [ha])] at hfil
      exact ih s2 h2 hfil

theorem aggregateFold_promotion_one (rs : List FetchResult) (s s1 : CartSummary)
    (r : FetchResult) (h : aggregateFold rs s = some s1)
    (hfil : rs.filter (fun x => x.Key == "promotion") = [r]) :
    promotionFieldPolicy r s1 := by
  induction rs generalizing s with
  | nil => simp at hfil
  | cons a rs ih =>
    rw [List.filter_cons] at hfil
    simp only [aggregateFold, List.foldlM_cons, Option.bind_eq_bind,
      Option.bind_eq_some] at h
    obtain ⟨s2, h1, h2⟩ := h
    by_cases ha : a.Key = "promotion"
    · rw [if_pos (by simp [ha])] at hfil
      obtain ⟨rfl, htail⟩ := List.cons_eq_cons.mp hfil
      have pol := (applyResult_cases s a s2 h1).2.2.2.2.2.2.2.2 ha
      have hnone : ∀ x ∈ rs, x.Key ≠ "promotion" := by
        intro x hx hxk
        have : x ∈ rs.filter (fun x => x.Key == "promotion") :=
          List.mem_filter.mpr ⟨hx, by simp [hxk]⟩
        rw [htail] at this
        simp at this
      obtain ⟨fr1, fr2⟩ := aggregateFold_promotion_frame rs s2 s1 h2 hnone
      constructor
      · intro hss
        rw [fr1, fr2]
        exact pol.1 hss
      · intro hns
        rw [fr1, fr2]
        exact pol.2 hns
    · rw [if_neg (by simp [ha])] at hfil
      exact ih s2 h2 hfil

theorem registry_filter_key (registry : List (String × ServiceFn)) (k : String)
    (fn : ServiceFn) (hnd : (registry.map Prod.fst).Nodup) (hmem : (k, fn) ∈ registry) :
    registry.filter (fun e => e.1 == k) = [(k, fn)] := by
  induction registry with
  | nil => cases hmem
  | cons b l ih =>
    rw [List.map_cons, List.nodup_cons] at hnd
    obtain ⟨hb, hndl⟩ := hnd
    rw [List.filter_cons]
    rcases List.mem_cons.mp hmem with heq | hmem2
    · subst heq
      rw [if_pos (by simp)]
      have hnokey : ∀ e ∈ l, ¬(e.1 == k) = true := by
        intro e he hc
        exact hb (by
          have hek : e.1 = k := by simpa using hc
          exact hek ▸ List.mem_map.mpr ⟨e, he, rfl⟩)
      rw [List.filter_eq_nil_iff.mpr hnokey]
    · have hblk : b.1 ≠ k := by
        intro hc
        exact hb (hc ▸ List.mem_map.mpr ⟨(k, fn), hmem2, rfl⟩)
      rw [if_neg (by simp [hblk])]
      exact ih hndl hmem2

theorem roundOutcomes_filter (registry : List (String × ServiceFn)) (pid k : String)
    (fn : ServiceFn) (hnd : (registry.map Prod.fst).Nodup) (hmem : (k, fn) ∈ registry) :
    (roundOutcomes registry pid).filter (fun r => r.Key == k)
      = [executeService aggregationTimeout k pid fn] := by
  unfold roundOutcomes
  rw [List.filter_map]
  have hcomp : ((fun r : FetchResult => r.Key == k) ∘
      (fun entry : String × ServiceFn =>
        executeService aggregationTimeout entry.1 pid entry.2))
      = fun e : String × ServiceFn => e.1 == k := by
    funext e
    simp [Function.comp, executeService_Key]
  rw [hcomp, registry_filter_key registry k fn hnd hmem]
  rfl

theorem roundOutcomes_keys (registry : List (String × ServiceFn)) (pid : String) :
    (roundOutcomes registry pid).map FetchResult.Key = registry.map Prod.fst := by
  unfold roundOutcomes
  induction registry with
  | nil => rfl
  | cons e l ih => simp [List.map_cons, executeService_Key, ih]

theorem roundOutcomes_key_ne (registry : List (String × ServiceFn)) (pid k : String)
    (hk : k ∉ registry.map Prod.fst) :
    ∀ r ∈ roundOutcomes registry pid, r.Key ≠ k := by
  intro r hr
  unfold roundOutcomes at hr
  obtain ⟨e, he, rfl⟩ := List.mem_map.mp hr
  rw [executeService_Key]
  intro hc
  exact hk (hc ▸ List.mem_map.mpr ⟨e, he, rfl⟩)

theorem FanOutAndAggregate_some (registry : List (String × ServiceFn)) (pid : String)
    (s : CartSummary) (er : Option GoError)
    (h : FanOutAndAggregate registry pid = some (s, er)) :
    aggregateFold (roundOutcomes registry pid) (initSummary pid) = some s ∧ er = none := by
  unfold FanOutAndAggregate at h
  cases hf : aggregateFold (roundOutcomes registry pid) (initSummary pid) with
  | some s2 =>
    rw [hf] at h
    injection h with h
    rw [Prod.mk.injEq] at h
    exact ⟨hf ▸ congrArg some h.1, h.2.symm⟩
  | none =>
    rw [hf] at h
    exact Option.noConfusion h

theorem applyResult_isSome (acc : CartSummary) (res : FetchResult)
    (h : assertOK res = true) : (applyResult acc res).isSome := by
  unfold assertOK at h
  simp only [applyResult]
  by_cases hk1 : res.Key = "price"
  · rw [if_pos hk1] at h ⊢
    by_cases hs : res.Status = StatusSuccess
    · rw [if_pos hs] at h ⊢
      cases hv : res.Value <;> simp_all
    · rw [if_neg hs]
      simp
  · rw [if_neg hk1] at h ⊢
    by_cases hk2 : res.Key = "stock"
    · rw [if_pos hk2] at h ⊢
      by_cases hs : res.Status = StatusSuccess
      · rw [if_pos hs] at h ⊢
        cases hv : res.Value <;> simp_all
      · rw [if_neg hs]
        simp
    · rw [if_neg hk2] at h ⊢
      by_cases hk3 : res.Key = "promotion"
      · rw [if_pos hk3] at h ⊢
        by_cases hs : res.Status = StatusSuccess
        · rw [if_pos hs] at h ⊢
          cases hv : res.Value <;> simp_all
        · rw [if_neg hs]
          simp
      · rw [if_neg hk3]
        simp

theorem aggregateFold_isSome (rs : List FetchResult) (s : CartSummary)
    (h : ∀ r ∈ rs, assertOK r = true) : (aggregateFold rs s).isSome := by
  induction rs generalizing s with
  | nil => simp [aggregateFold]
  | cons r rs ih =>
    have h1 := applyResult_isSome s r (h r (List.mem_cons_self r rs))
    obtain ⟨s2, hs2⟩ := Option.isSome_iff_exists.mp h1
    simp only [aggregateFold, List.foldlM_cons, Option.bind_eq_bind, hs2,
      Option.some_bind]
    exact ih s2 (fun x hx => h x (List.mem_cons_of_mem r hx))

theorem serviceElapsedMs_le (d : Nat) (fn : ServiceFn) (pid : String) :
    serviceElapsedMs d fn pid ≤ d := by
  unfold serviceElapsedMs simulatedCall
  by_cases hlt : fn.delayMs pid < d
  · rw [if_pos hlt]
    exact Nat.le_of_lt hlt
  · rw [if_neg hlt]

theorem foldl_max_le (l : List Nat) (a b : Nat) (ha : a ≤ b)
    (hl : ∀ x ∈ l, x ≤ b) : l.foldl max a ≤ b := by
  induction l generalizing a with
  | nil => exact ha
  | cons x l ih =>
    rw [List.foldl_cons]
    exact ih (max a x) (max_le ha (hl x (List.mem_cons_self x l)))
      (fun y hy => hl y (List.mem_cons_of_mem x hy))

theorem executeService_price_ok (pid : String) (hpid : pid ≠ "TEST-SKU-TIMEOUT") :
    executeService aggregationTimeout "price" pid FetchPriceSimulates =
      { Key := "price", Value := GoValue.vfloat (49.99 : ℚ),
        Status := StatusSuccess, Error := none } := by
  unfold executeService runCall simulatedCall FetchPriceSimulates aggregationTimeout
  simp [hpid]

theorem executeService_price_timeout :
    executeService aggregationTimeout "price" "TEST-SKU-TIMEOUT" FetchPriceSimulates =
      { Key := "price", Value := GoValue.vnil, Status := StatusTimeout,
        Error := some { ServiceKey := "price",
                        Message := "Service execution exceeded the global aggregation timeout",
                        Timeout := true, Err := GoError.deadlineExceeded } } := rfl

theorem executeService_stock_ok (pid : String) :
    executeService aggregationTimeout "stock" pid FetchInventorySimulates =
      { Key := "stock", Value := GoValue.vint 120,
        Status := StatusSuccess, Error := none } := rfl

theorem executeService_promotion_ok (pid : String) :
    executeService aggregationTimeout "promotion" pid FetchPromotionsSimulates =
      { Key := "promotion", Value := GoValue.vstr "Buy 1 Get 1 Half Off!",
        Status := StatusSuccess, Error := none } := rfl

theorem serviceMap_outcome_assertOK (pid : String) (e : String × ServiceFn)
    (he : e ∈ ServiceMap) :
    assertOK (executeService aggregationTimeout e.1 pid e.2) = true := by
  rw [ServiceMap] at he
  rcases List.mem_cons.mp he with rfl | he2
  · by_cases hpid : pid = "TEST-SKU-TIMEOUT"
    · subst hpid
      rfl
    · rw [executeService_price_ok pid hpid]
      rfl
  · rcases List.mem_cons.mp he2 with rfl | he3
    · rfl
    · rcases List.mem_cons.mp he3 with rfl | he4
      · rfl
      · cases he4

/-- Membership in the shipped round's outcome list means membership through
one of the three registry entries. -/
theorem roundOutcomes_assertOK (registry : List (String × ServiceFn)) (pid : String)
    (hperm : registry.Perm ServiceMap) :
    ∀ r ∈ roundOutcomes registry pid, assertOK r = true := by
  intro r hr
  unfold roundOutcomes at hr
  obtain ⟨e, he, rfl⟩ := List.mem_map.mp hr
  exact serviceMap_outcome_assertOK pid e (hperm.mem_iff.mp he)

/-- The structured error carried by the outcome `res` (if any) is recorded in
the summary's error list. -/
def errorRecorded (res : FetchResult) (s : CartSummary) : Prop :=
  ∀ e, res.Error = some e → e ∈ s.ServiceErrors

theorem aggregate_ServiceErrors (registry : List (String × ServiceFn)) (pid : String)
    (s : CartSummary) (er : Option GoError)
    (hagg : FanOutAndAggregate registry pid = some (s, er)) :
    s.ServiceErrors = (roundOutcomes registry pid).filterMap FetchResult.Error := by
  obtain ⟨hfold, -⟩ := FanOutAndAggregate_some registry pid s er hagg
  have hbase := (aggregateFold_base _ _ _ hfold).2.2
  simpa [initSummary] using hbase

/-- Shared core of the fallback-policy results: the per-key policies and
error recording, for any registry with unique keys registering all three
backend keys. -/
theorem fallback_policy_core (registry : List (String × ServiceFn)) (pid : String)
    (fPrice fStock fPromo : ServiceFn) (s : CartSummary) (er : Option GoError)
    (hnd : (registry.map Prod.fst).Nodup)
    (hp : ("price", fPrice) ∈ registry)
    (hq : ("stock", fStock) ∈ registry)
    (hm : ("promotion", fPromo) ∈ registry)
    (hagg : FanOutAndAggregate registry pid = some (s, er)) :
    (priceFieldPolicy (executeService aggregationTimeout "price" pid fPrice) s ∧
      errorRecorded (executeService aggregationTimeout "price" pid fPrice) s) ∧
    (stockFieldPolicy (executeService aggregationTimeout "stock" pid fStock) s ∧
      errorRecorded (executeService aggregationTimeout "stock" pid fStock) s) ∧
    (promotionFieldPolicy (executeService aggregationTimeout "promotion" pid fPromo) s ∧
      errorRecorded (executeService aggregationTimeout "promotion" pid fPromo) s) := by
  obtain ⟨hfold, -⟩ := FanOutAndAggregate_some registry pid s er hagg
  have herrs := aggregate_ServiceErrors registry pid s er hagg
  have hrec : ∀ (k : String) (fn : ServiceFn), (k, fn) ∈ registry →
      errorRecorded (executeService aggregationTimeout k pid fn) s := by
    intro k fn hkfn e he
    rw [herrs]
    refine List.mem_filterMap.mpr ⟨executeService aggregationTimeout k pid fn, ?_, he⟩
    unfold roundOutcomes
    exact List.mem_map.mpr ⟨(k, fn), hkfn, rfl⟩
  exact ⟨⟨aggregateFold_price_one _ _ _ _ hfold
            (roundOutcomes_filter registry pid "price" fPrice hnd hp),
          hrec _ _ hp⟩,
         ⟨aggregateFold_stock_one _ _ _ _ hfold
            (roundOutcomes_filter registry pid "stock" fStock hnd hq),
          hrec _ _ hq⟩,
         ⟨aggregateFold_promotion_one _ _ _ _ hfold
            (roundOutcomes_filter registry pid "promotion" fPromo hnd hm),
          hrec _ _ hm⟩⟩

/-- C1. Fallback policy: in every aggregation round whose registry has
unique keys and registers all three backend keys, for each of the keys
price, stock, promotion — if that key's outcome status is SUCCESS, the
corresponding Summary field takes the produced value with status SUCCESS;
if it is not SUCCESS (i.e. TIMEOUT or ERROR, the only other statuses
`executeService` produces), the field takes its fixed fallback constant
(price 0.00, stock 0, promotion "No promotions available") with status
FALLBACK; and the outcome's StructuredError is in the Summary's error
list. -/
theorem fallback_policy_applied (registry : List (String × ServiceFn)) (pid : String)
    (fPrice fStock fPromo : ServiceFn) (s : CartSummary) (er : Option GoError)
    (hnd : (registry.map Prod.fst).Nodup)
    (hp : ("price", fPrice) ∈ registry)
    (hq : ("stock", fStock) ∈ registry)
    (hm : ("promotion", fPromo) ∈ registry)
    (hagg : FanOutAndAggregate registry pid = some (s, er)) :
    (priceFieldPolicy (executeService aggregationTimeout "price" pid fPrice) s ∧
      errorRecorded (executeService aggregationTimeout "price" pid fPrice) s) ∧
    (stockFieldPolicy (executeService aggregationTimeout "stock" pid fStock) s ∧
      errorRecorded (executeService aggregationTimeout "stock" pid fStock) s) ∧
    (promotionFieldPolicy (executeService aggregationTimeout "promotion" pid fPromo) s ∧
      errorRecorded (executeService aggregationTimeout "promotion" pid fPromo) s) :=
  fallback_policy_core registry pid fPrice fStock fPromo s er hnd hp hq hm hagg

/-- Witness for C1 at the shipped registry and an ordinary SKU. -/
theorem fallback_policy_applied_witness :
    ((ServiceMap.map Prod.fst).Nodup ∧
     ("price", FetchPriceSimulates) ∈ ServiceMap ∧
     ("stock", FetchInventorySimulates) ∈ ServiceMap ∧
     ("promotion", FetchPromotionsSimulates) ∈ ServiceMap ∧
     FanOutAndAggregate ServiceMap "SKU-1" = some (allSuccessSummary "SKU-1", none)) ∧
    ((priceFieldPolicy
        (executeService aggregationTimeout "price" "SKU-1" FetchPriceSimulates)
        (allSuccessSummary "SKU-1") ∧
      errorRecorded
        (executeService aggregationTimeout "price" "SKU-1" FetchPriceSimulates)
        (allSuccessSummary "SKU-1")) ∧
     (stockFieldPolicy
        (executeService aggregationTimeout "stock" "SKU-1" FetchInventorySimulates)
        (allSuccessSummary "SKU-1") ∧
      errorRecorded
        (executeService aggregationTimeout "stock" "SKU-1" FetchInventorySimulates)
        (allSuccessSummary "SKU-1")) ∧
     (promotionFieldPolicy
        (executeService aggregationTimeout "promotion" "SKU-1" FetchPromotionsSimulates)
        (allSuccessSummary "SKU-1") ∧
      errorRecorded
        (executeService aggregationTimeout "promotion" "SKU-1" FetchPromotionsSimulates)
        (allSuccessSummary "SKU-1"))) :=
  ⟨⟨by decide, by simp [ServiceMap], by simp [ServiceMap], by simp [ServiceMap], rfl⟩,
   fallback_policy_applied ServiceMap "SKU-1" FetchPriceSimulates
     FetchInventorySimulates FetchPromotionsSimulates (allSuccessSummary "SKU-1") none
     (by decide) (by simp [ServiceMap]) (by simp [ServiceMap]) (by simp [ServiceMap]) rfl⟩

/-- C2. Exactly-once outcomes: one round over a registry of size N with
unique keys produces exactly N outcomes, one per registered key, with no
duplicates and no omissions (the outcome keys are exactly the registry
keys, and are themselves duplicate-free). -/
theorem outcomes_exactly_once (registry : List (String × ServiceFn)) (pid : String)
    (hnd : (registry.map Prod.fst).Nodup) :
    (roundOutcomes registry pid).length = registry.length ∧
    (roundOutcomes registry pid).map FetchResult.Key = registry.map Prod.fst ∧
    ((roundOutcomes registry pid).map FetchResult.Key).Nodup := by
  refine ⟨by simp [roundOutcomes], roundOutcomes_keys registry pid, ?_⟩
  rw [roundOutcomes_keys]
  exact hnd

/-- Witness for C2 at the shipped registry. -/
theorem outcomes_exactly_once_witness :
    (ServiceMap.map Prod.fst).Nodup ∧
    ((roundOutcomes ServiceMap "SKU-1").length = ServiceMap.length ∧
     (roundOutcomes ServiceMap "SKU-1").map FetchResult.Key = ServiceMap.map Prod.fst ∧
     ((roundOutcomes ServiceMap "SKU-1").map FetchResult.Key).Nodup) :=
  ⟨by decide, outcomes_exactly_once ServiceMap "SKU-1" (by decide)⟩

/-- C3. Timeout flag soundness: whenever a worker's outcome carries a
StructuredError, its Timeout flag is true exactly when the underlying call
returned `context.DeadlineExceeded`; a true flag comes with outcome status
TIMEOUT and a false flag (e.g. the simulated 503 domain error) with outcome
status ERROR. -/
theorem executeService_of_ok (d : Nat) (k pid : String) (fn : ServiceFn) (v : GoValue)
    (hc : runCall d fn pid = Except.ok v) :
    executeService d k pid fn =
      { Key := k, Value := v, Status := StatusSuccess, Error := none } := by
  unfold executeService
  rw [hc]

theorem executeService_of_error (d : Nat) (k pid : String) (fn : ServiceFn) (ge : GoError)
    (hc : runCall d fn pid = Except.error ge) :
    executeService d k pid fn =
      if ge = GoError.deadlineExceeded then
        { Key := k, Value := GoValue.vnil, Status := StatusTimeout,
          Error := some { ServiceKey := k,
                          Message := "Service execution exceeded the global aggregation timeout",
                          Timeout := true, Err := ge } }
      else
        { Key := k, Value := GoValue.vnil, Status := StatusError,
          Error := some { ServiceKey := k,
                          Message := "External service call failed",
                          Timeout := false, Err := ge } } := by
  unfold executeService
  rw [hc]

theorem timeout_flag_sound (deadlineMs : Nat) (key pid : String) (fn : ServiceFn)
    (e : ServiceError)
    (he : (executeService deadlineMs key pid fn).Error = some e) :
    (e.Timeout = true ↔ runCall deadlineMs fn pid = Except.error GoError.deadlineExceeded) ∧
    (e.Timeout = true → (executeService deadlineMs key pid fn).Status = StatusTimeout) ∧
    (e.Timeout = false → (executeService deadlineMs key pid fn).Status = StatusError) := by
  cases hc : runCall deadlineMs fn pid with
  | ok v =>
    rw [executeService_of_ok deadlineMs key pid fn v hc] at he
    exact Option.noConfusion he
  | error ge =>
    rw [executeService_of_error deadlineMs key pid fn ge hc] at he ⊢
    by_cases hd : ge = GoError.deadlineExceeded
    · rw [if_pos hd] at he ⊢
      injection he with he
      subst he
      subst hd
      exact ⟨⟨fun _ => rfl, fun _ => rfl⟩, fun _ => rfl, fun hf => by simp at hf⟩
    · rw [if_neg hd] at he ⊢
      injection he with he
      subst he
      exact ⟨⟨fun ht => by simp at ht,
              fun hrc => absurd (Except.error.inj hrc) hd⟩,
             fun ht => by simp at ht, fun _ => rfl⟩

/-- Witness for C3 at the price worker forced past the deadline. -/
theorem timeout_flag_sound_witness :
    (executeService aggregationTimeout "price" "TEST-SKU-TIMEOUT" FetchPriceSimulates).Error
      = some { ServiceKey := "price",
               Message := "Service execution exceeded the global aggregation timeout",
               Timeout := true, Err := GoError.deadlineExceeded } ∧
    ((({ ServiceKey := "price",
         Message := "Service execution exceeded the global aggregation timeout",
         Timeout := true, Err := GoError.deadlineExceeded } : ServiceError).Timeout = true ↔
        runCall aggregationTimeout FetchPriceSimulates "TEST-SKU-TIMEOUT"
          = Except.error GoError.deadlineExceeded) ∧
     (({ ServiceKey := "price",
         Message := "Service execution exceeded the global aggregation timeout",
         Timeout := true, Err := GoError.deadlineExceeded } : ServiceError).Timeout = true →
        (executeService aggregationTimeout "price" "TEST-SKU-TIMEOUT"
          FetchPriceSimulates).Status = StatusTimeout) ∧
     (({ ServiceKey := "price",
         Message := "Service execution exceeded the global aggregation timeout",
         Timeout := true, Err := GoError.deadlineExceeded } : ServiceError).Timeout = false →
        (executeService aggregationTimeout "price" "TEST-SKU-TIMEOUT"
          FetchPriceSimulates).Status = StatusError)) :=
  ⟨rfl, timeout_flag_sound aggregationTimeout "price" "TEST-SKU-TIMEOUT"
     FetchPriceSimulates _ rfl⟩

/-- C4 counterexample: on the empty registry the engine still returns a nil
error (there is no setup-failure check in the code), refuting "a non-nil
error exactly when the registry is empty". -/
theorem empty_registry_no_fatal_cex :
    FanOutAndAggregate ([] : List (String × ServiceFn)) "SKU-1"
      = some (initSummary "SKU-1", none) ∧
    ¬ (∀ (s : CartSummary) (er : Option GoError),
        FanOutAndAggregate ([] : List (String × ServiceFn)) "SKU-1" = some (s, er) →
        er ≠ none) :=
  ⟨rfl, fun h => h (initSummary "SKU-1") none rfl rfl⟩

/-- C4 (amended). The engine's error return is never populated: for every
registry — empty or not — and every product id, whenever the round completes,
the returned Go error is nil; individual backend failures are absorbed into
per-field statuses and the error list, never surfaced here. -/
theorem aggregate_never_returns_fatal (registry : List (String × ServiceFn))
    (pid : String) (s : CartSummary) (er : Option GoError)
    (h : FanOutAndAggregate registry pid = some (s, er)) : er = none :=
  (FanOutAndAggregate_some registry pid s er h).2

/-- Witness for the amended C4 at the shipped registry. -/
theorem aggregate_never_returns_fatal_witness :
    FanOutAndAggregate ServiceMap "SKU-1" = some (allSuccessSummary "SKU-1", none) ∧
    (none : Option GoError) = none :=
  ⟨rfl, aggregate_never_returns_fatal ServiceMap "SKU-1" (allSuccessSummary "SKU-1") none rfl⟩

/-- C5. Bounded completion: the engine returns once the slowest worker has
finished, and every worker finishes by success, domain error, or shared
deadline expiry at the latest — so a round's elapsed time never exceeds the
450 ms aggregation timeout, however large any backend's configured delay
is. -/
theorem aggregation_elapsed_bounded (registry : List (String × ServiceFn))
    (pid : String) : aggregateElapsedMs registry pid ≤ aggregationTimeout := by
  unfold aggregateElapsedMs
  refine foldl_max_le _ _ _ (Nat.zero_le _) ?_
  intro x hx
  obtain ⟨e, he, rfl⟩ := List.mem_map.mp hx
  exact serviceElapsedMs_le aggregationTimeout e.2 pid

/-- C6. All-success scenario: with the shipped registry (in any drain
order) and any ordinary product id, the round returns Price 49.99 /
Stock 120 / Promotion "Buy 1 Get 1 Half Off!", all three statuses SUCCESS,
and an empty error list. -/
theorem all_success_round (registry : List (String × ServiceFn)) (pid : String)
    (hperm : registry.Perm ServiceMap) (hpid : pid ≠ "TEST-SKU-TIMEOUT") :
    FanOutAndAggregate registry pid = some (allSuccessSummary pid, none) := by
  have hnd : (registry.map Prod.fst).Nodup :=
    (hperm.map Prod.fst).nodup_iff.mpr (by decide)
  have hall := roundOutcomes_assertOK registry pid hperm
  obtain ⟨s, hs⟩ := Option.isSome_iff_exists.mp
    (aggregateFold_isSome (roundOutcomes registry pid) (initSummary pid) hall)
  have hagg : FanOutAndAggregate registry pid = some (s, none) := by
    unfold FanOutAndAggregate
    rw [hs]
  have hp : ("price", FetchPriceSimulates) ∈ registry :=
    hperm.mem_iff.mpr (by simp [ServiceMap])
  have hq : ("stock", FetchInventorySimulates) ∈ registry :=
    hperm.mem_iff.mpr (by simp [ServiceMap])
  have hm : ("promotion", FetchPromotionsSimulates) ∈ registry :=
    hperm.mem_iff.mpr (by simp [ServiceMap])
  obtain ⟨⟨polP, -⟩, ⟨polS, -⟩, ⟨polM, -⟩⟩ :=
    fallback_policy_core registry pid FetchPriceSimulates FetchInventorySimulates
      FetchPromotionsSimulates s none hnd hp hq hm hagg
  rw [executeService_price_ok pid hpid] at polP
  rw [executeService_stock_ok pid] at polS
  rw [executeService_promotion_ok pid] at polM
  obtain ⟨hPs, hPv⟩ := polP.1 rfl
  obtain ⟨hSs, hSv⟩ := polS.1 rfl
  obtain ⟨hMs, hMv⟩ := polM.1 rfl
  obtain ⟨hfold, -⟩ := FanOutAndAggregate_some registry pid s none hagg
  obtain ⟨hpidEq, hTT, -⟩ := aggregateFold_base _ _ _ hfold
  have herr := aggregate_ServiceErrors registry pid s none hagg
  have hnone : ∀ r ∈ roundOutcomes registry pid, FetchResult.Error r = none := by
    intro r hr
    unfold roundOutcomes at hr
    obtain ⟨e, he, rfl⟩ := List.mem_map.mp hr
    have hmem := hperm.mem_iff.mp he
    rw [ServiceMap] at hmem
    rcases List.mem_cons.mp hmem with rfl | hmem2
    · rw [executeService_price_ok pid hpid]
    · rcases List.mem_cons.mp hmem2 with rfl | hmem3
      · rw [executeService_stock_ok pid]
      · rcases List.mem_cons.mp hmem3 with rfl | hmem4
        · rw [executeService_promotion_ok pid]
        · cases hmem4
  have herrs : s.ServiceErrors = [] := by
    rw [herr]
    exact List.filterMap_eq_nil_iff.mpr hnone
  have hsum : s = allSuccessSummary pid := by
    apply CartSummary.ext
    · exact hpidEq
    · exact (GoValue.vfloat.inj hPv).symm
    · exact hPs
    · exact (GoValue.vint.inj hSv).symm
    · exact hSs
    · exact (GoValue.vstr.inj hMv).symm
    · exact hMs
    · exact hTT
    · rw [herrs]
      rfl
  rw [hagg, hsum]

/-- Witness for C6 at the shipped registry order and an ordinary SKU. -/
theorem all_success_round_witness :
    ServiceMap.Perm ServiceMap ∧ "SKU-1" ≠ "TEST-SKU-TIMEOUT" ∧
    FanOutAndAggregate ServiceMap "SKU-1" = some (allSuccessSummary "SKU-1", none) :=
  ⟨List.Perm.refl ServiceMap, by decide,
   all_success_round ServiceMap "SKU-1" (List.Perm.refl ServiceMap) (by decide)⟩

/-- C7. In every summary the engine returns for the shipped registry, each
per-field status is exactly SUCCESS or FALLBACK — the TIMEOUT and ERROR
members of the status enum never appear as a field status (they live only
on the internal per-worker FetchResult). -/
theorem summary_status_success_or_fallback (registry : List (String × ServiceFn))
    (pid : String) (s : CartSummary) (er : Option GoError)
    (hperm : registry.Perm ServiceMap)
    (hagg : FanOutAndAggregate registry pid = some (s, er)) :
    (s.PriceStatus = StatusSuccess ∨ s.PriceStatus = StatusFallback) ∧
    (s.StockStatus = StatusSuccess ∨ s.StockStatus = StatusFallback) ∧
    (s.PromotionStatus = StatusSuccess ∨ s.PromotionStatus = StatusFallback) := by
  have hnd : (registry.map Prod.fst).Nodup :=
    (hperm.map Prod.fst).nodup_iff.mpr (by decide)
  have hp : ("price", FetchPriceSimulates) ∈ registry :=
    hperm.mem_iff.mpr (by simp [ServiceMap])
  have hq : ("stock", FetchInventorySimulates) ∈ registry :=
    hperm.mem_iff.mpr (by simp [ServiceMap])
  have hm : ("promotion", FetchPromotionsSimulates) ∈ registry :=
    hperm.mem_iff.mpr (by simp [ServiceMap])
  obtain ⟨⟨polP, -⟩, ⟨polS, -⟩, ⟨polM, -⟩⟩ :=
    fallback_policy_core registry pid FetchPriceSimulates FetchInventorySimulates
      FetchPromotionsSimulates s er hnd hp hq hm hagg
  refine ⟨?_, ?_, ?_⟩
  · by_cases hst : (executeService aggregationTimeout "price" pid
        FetchPriceSimulates).Status = StatusSuccess
    · exact Or.inl (polP.1 hst).1
    · exact Or.inr (polP.2 hst).2
  · by_cases hst : (executeService aggregationTimeout "stock" pid
        FetchInventorySimulates).Status = StatusSuccess
    · exact Or.inl (polS.1 hst).1
    · exact Or.inr (polS.2 hst).2
  · by_cases hst : (executeService aggregationTimeout "promotion" pid
        FetchPromotionsSimulates).Status = StatusSuccess
    · exact Or.inl (polM.1 hst).1
    · exact Or.inr (polM.2 hst).2

/-- Witness for C7 at the shipped registry and an ordinary SKU. -/
theorem summary_status_success_or_fallback_witness :
    (ServiceMap.Perm ServiceMap ∧
     FanOutAndAggregate ServiceMap "SKU-1" = some (allSuccessSummary "SKU-1", none)) ∧
    (((allSuccessSummary "SKU-1").PriceStatus = StatusSuccess ∨
      (allSuccessSummary "SKU-1").PriceStatus = StatusFallback) ∧
     ((allSuccessSummary "SKU-1").StockStatus = StatusSuccess ∨
      (allSuccessSummary "SKU-1").StockStatus = StatusFallback) ∧
     ((allSuccessSummary "SKU-1").PromotionStatus = StatusSuccess ∨
      (allSuccessSummary "SKU-1").PromotionStatus = StatusFallback)) :=
  ⟨⟨List.Perm.refl ServiceMap, rfl⟩,
   summary_status_success_or_fallback ServiceMap "SKU-1" (allSuccessSummary "SKU-1")
     none (List.Perm.refl ServiceMap) rfl⟩

/-- C8. Timing is stamped only by the caller: the engine returns the
summary with `TotalTimeMs` still at its zero value, and the handler's
response body differs from the engine's summary in `TotalTimeMs` alone,
which it sets to the measured elapsed time. -/
theorem elapsed_stamped_only_by_handler (registry : List (String × ServiceFn))
    (pid : String) (t : Int) (s s2 : CartSummary)
    (hagg : FanOutAndAggregate registry pid = some (s, none))
    (hget : GetCartSummary registry pid t = some (HttpResponse.ok s2)) :
    s.TotalTimeMs = 0 ∧ s2.TotalTimeMs = t ∧ s2.ProductID = s.ProductID ∧
    s2.Price = s.Price ∧ s2.PriceStatus = s.PriceStatus ∧ s2.Stock = s.Stock ∧
    s2.StockStatus = s.StockStatus ∧ s2.Promotion = s.Promotion ∧
    s2.PromotionStatus = s.PromotionStatus ∧ s2.ServiceErrors = s.ServiceErrors := by
  obtain ⟨hfold, -⟩ := FanOutAndAggregate_some registry pid s none hagg
  have hTT := (aggregateFold_base _ _ _ hfold).2.1
  unfold GetCartSummary at hget
  rw [hagg] at hget
  injection hget with hget
  obtain rfl := (HttpResponse.ok.inj hget).symm
  exact ⟨hTT, rfl, rfl, rfl, rfl, rfl, rfl, rfl, rfl, rfl⟩

/-- Witness for C8 at the shipped registry, an ordinary SKU and a measured
elapsed time of 405 ms. -/
theorem elapsed_stamped_only_by_handler_witness :
    (FanOutAndAggregate ServiceMap "SKU-1" = some (allSuccessSummary "SKU-1", none) ∧
     GetCartSummary ServiceMap "SKU-1" 405
       = some (HttpResponse.ok { allSuccessSummary "SKU-1" with TotalTimeMs := 405 })) ∧
    ((allSuccessSummary "SKU-1").TotalTimeMs = 0 ∧
     ({ allSuccessSummary "SKU-1" with TotalTimeMs := 405 } : CartSummary).TotalTimeMs = 405 ∧
     ({ allSuccessSummary "SKU-1" with TotalTimeMs := 405 } : CartSummary).ProductID
       = (allSuccessSummary "SKU-1").ProductID ∧
     ({ allSuccessSummary "SKU-1" with TotalTimeMs := 405 } : CartSummary).Price
       = (allSuccessSummary "SKU-1").Price ∧
     ({ allSuccessSummary "SKU-1" with TotalTimeMs := 405 } : CartSummary).PriceStatus
       = (allSuccessSummary "SKU-1").PriceStatus ∧
     ({ allSuccessSummary "SKU-1" with TotalTimeMs := 405 } : CartSummary).Stock
       = (allSuccessSummary "SKU-1").Stock ∧
     ({ allSuccessSummary "SKU-1" with TotalTimeMs := 405 } : CartSummary).StockStatus
       = (allSuccessSummary "SKU-1").StockStatus ∧
     ({ allSuccessSummary "SKU-1" with TotalTimeMs := 405 } : CartSummary).Promotion
       = (allSuccessSummary "SKU-1").Promotion ∧
     ({ allSuccessSummary "SKU-1" with TotalTimeMs := 405 } : CartSummary).PromotionStatus
       = (allSuccessSummary "SKU-1").PromotionStatus ∧
     ({ allSuccessSummary "SKU-1" with TotalTimeMs := 405 } : CartSummary).ServiceErrors
       = (allSuccessSummary "SKU-1").ServiceErrors) :=
  ⟨⟨rfl, rfl⟩,
   elapsed_stamped_only_by_handler ServiceMap "SKU-1" 405 (allSuccessSummary "SKU-1")
     { allSuccessSummary "SKU-1" with TotalTimeMs := 405 } rfl rfl⟩

/-- C9. Idempotence: two rounds over the same registry (same unique-keyed
backend map, possibly drained in different orders — modelled by a
permutation) and the same product id agree on the product id, all field
values and statuses, and carry permutation-equal (same multiset) error
lists. -/
theorem aggregate_idempotent (reg1 reg2 : List (String × ServiceFn)) (pid : String)
    (s1 s2 : CartSummary) (er1 er2 : Option GoError)
    (hperm : reg1.Perm reg2) (hnd : (reg1.map Prod.fst).Nodup)
    (h1 : FanOutAndAggregate reg1 pid = some (s1, er1))
    (h2 : FanOutAndAggregate reg2 pid = some (s2, er2)) :
    s1.ProductID = s2.ProductID ∧ s1.Price = s2.Price ∧
    s1.PriceStatus = s2.PriceStatus ∧ s1.Stock = s2.Stock ∧
    s1.StockStatus = s2.StockStatus ∧ s1.Promotion = s2.Promotion ∧
    s1.PromotionStatus = s2.PromotionStatus ∧
    s1.ServiceErrors.Perm s2.ServiceErrors := by
  have hnd2 : (reg2.map Prod.fst).Nodup := (hperm.map Prod.fst).nodup_iff.mp hnd
  obtain ⟨hfold1, -⟩ := FanOutAndAggregate_some reg1 pid s1 er1 h1
  obtain ⟨hfold2, -⟩ := FanOutAndAggregate_some reg2 pid s2 er2 h2
  obtain ⟨hb1, -, -⟩ := aggregateFold_base _ _ _ hfold1
  obtain ⟨hb2, -, -⟩ := aggregateFold_base _ _ _ hfold2
  have hprice : s1.Price = s2.Price ∧ s1.PriceStatus = s2.PriceStatus := by
    by_cases hk : "price" ∈ reg1.map Prod.fst
    · obtain ⟨⟨k, fn⟩, he, hke⟩ := List.mem_map.mp hk
      have hke2 : k = "price" := hke
      subst hke2
      have pol1 := aggregateFold_price_one _ _ _ _ hfold1
        (roundOutcomes_filter reg1 pid "price" fn hnd he)
      have pol2 := aggregateFold_price_one _ _ _ _ hfold2
        (roundOutcomes_filter reg2 pid "price" fn hnd2 (hperm.mem_iff.mp he))
      by_cases hst : (executeService aggregationTimeout "price" pid fn).Status
          = StatusSuccess
      · obtain ⟨a1, b1⟩ := pol1.1 hst
        obtain ⟨a2, b2⟩ := pol2.1 hst
        exact ⟨GoValue.vfloat.inj (b1.symm.trans b2), a1.trans a2.symm⟩
      · obtain ⟨a1, b1⟩ := pol1.2 hst
        obtain ⟨a2, b2⟩ := pol2.2 hst
        exact ⟨a1.trans a2.symm, b1.trans b2.symm⟩
    · have hk2 : "price" ∉ reg2.map Prod.fst :=
        fun hc => hk ((hperm.map Prod.fst).mem_iff.mpr hc)
      obtain ⟨c1, d1⟩ := aggregateFold_price_frame _ _ _ hfold1
        (roundOutcomes_key_ne reg1 pid "price" hk)
      obtain ⟨c2, d2⟩ := aggregateFold_price_frame _ _ _ hfold2
        (roundOutcomes_key_ne reg2 pid "price" hk2)
      exact ⟨c1.trans c2.symm, d1.trans d2.symm⟩
  have hstock : s1.Stock = s2.Stock ∧ s1.StockStatus = s2.StockStatus := by
    by_cases hk : "stock" ∈ reg1.map Prod.fst
    · obtain ⟨⟨k, fn⟩, he, hke⟩ := List.mem_map.mp hk
      have hke2 : k = "stock" := hke
      subst hke2
      have pol1 := aggregateFold_stock_one _ _ _ _ hfold1
        (roundOutcomes_filter reg1 pid "stock" fn hnd he)
      have pol2 := aggregateFold_stock_one _ _ _ _ hfold2
        (roundOutcomes_filter reg2 pid "stock" fn hnd2 (hperm.mem_iff.mp he))
      by_cases hst : (executeService aggregationTimeout "stock" pid fn).Status
          = StatusSuccess
      · obtain ⟨a1, b1⟩ := pol1.1 hst
        obtain ⟨a2, b2⟩ := pol2.1 hst
        exact ⟨GoValue.vint.inj (b1.symm.trans b2), a1.trans a2.symm⟩
      · obtain ⟨a1, b1⟩ := pol1.2 hst
        obtain ⟨a2, b2⟩ := pol2.2 hst
        exact ⟨a1.trans a2.symm, b1.trans b2.symm⟩
    · have hk2 : "stock" ∉ reg2.map Prod.fst :=
        fun hc => hk ((hperm.map Prod.fst).mem_iff.mpr hc)
      obtain ⟨c1, d1⟩ := aggregateFold_stock_frame _ _ _ hfold1
        (roundOutcomes_key_ne reg1 pid "stock" hk)
      obtain ⟨c2, d2⟩ := aggregateFold_stock_frame _ _ _ hfold2
        (roundOutcomes_key_ne reg2 pid "stock" hk2)
      exact ⟨c1.trans c2.symm, d1.trans d2.symm⟩
  have hpromo : s1.Promotion = s2.Promotion ∧
      s1.PromotionStatus = s2.PromotionStatus := by
    by_cases hk : "promotion" ∈ reg1.map Prod.fst
    · obtain ⟨⟨k, fn⟩, he, hke⟩ := List.mem_map.mp hk
      have hke2 : k = "promotion" := hke
      subst hke2
      have pol1 := aggregateFold_promotion_one _ _ _ _ hfold1
        (roundOutcomes_filter reg1 pid "promotion" fn hnd he)
      have pol2 := aggregateFold_promotion_one _ _ _ _ hfold2
        (roundOutcomes_filter reg2 pid "promotion" fn hnd2 (hperm.mem_iff.mp he))
      by_cases hst : (executeService aggregationTimeout "promotion" pid fn).Status
          = StatusSuccess
      · obtain ⟨a1, b1⟩ := pol1.1 hst
        obtain ⟨a2, b2⟩ := pol2.1 hst
        exact ⟨GoValue.vstr.inj (b1.symm.trans b2), a1.trans a2.symm⟩
      · obtain ⟨a1, b1⟩ := pol1.2 hst
        obtain ⟨a2, b2⟩ := pol2.2 hst
        exact ⟨a1.trans a2.symm, b1.trans b2.symm⟩
    · have hk2 : "promotion" ∉ reg2.map Prod.fst :=
        fun hc => hk ((hperm.map Prod.fst).mem_iff.mpr hc)
      obtain ⟨c1, d1⟩ := aggregateFold_promotion_frame _ _ _ hfold1
        (roundOutcomes_key_ne reg1 pid "promotion" hk)
      obtain ⟨c2, d2⟩ := aggregateFold_promotion_frame _ _ _ hfold2
        (roundOutcomes_key_ne reg2 pid "promotion" hk2)
      exact ⟨c1.trans c2.symm, d1.trans d2.symm⟩
  have herrp : s1.ServiceErrors.Perm s2.ServiceErrors := by
    rw [aggregate_ServiceErrors reg1 pid s1 er1 h1,
        aggregate_ServiceErrors reg2 pid s2 er2 h2]
    exact (hperm.map _).filterMap FetchResult.Error
  exact ⟨hb1.trans hb2.symm, hprice.1, hprice.2, hstock.1, hstock.2,
         hpromo.1, hpromo.2, herrp⟩

/-- The shipped registry drained with the stock outcome arriving first:
a permutation of `ServiceMap`, used to witness order-independence. -/
def ServiceMapStockFirst : List (String × ServiceFn) :=
  [("stock", FetchInventorySimulates),
   ("price", FetchPriceSimulates),
   ("promotion", FetchPromotionsSimulates)]

/-- Witness for C9: the shipped registry in two drain orders. -/
theorem aggregate_idempotent_witness :
    (ServiceMap.Perm ServiceMapStockFirst ∧ (ServiceMap.map Prod.fst).Nodup ∧
     FanOutAndAggregate ServiceMap "SKU-1" = some (allSuccessSummary "SKU-1", none) ∧
     FanOutAndAggregate ServiceMapStockFirst "SKU-1"
       = some (allSuccessSummary "SKU-1", none)) ∧
    ((allSuccessSummary "SKU-1").ProductID = (allSuccessSummary "SKU-1").ProductID ∧
     (allSuccessSummary "SKU-1").Price = (allSuccessSummary "SKU-1").Price ∧
     (allSuccessSummary "SKU-1").PriceStatus = (allSuccessSummary "SKU-1").PriceStatus ∧
     (allSuccessSummary "SKU-1").Stock = (allSuccessSummary "SKU-1").Stock ∧
     (allSuccessSummary "SKU-1").StockStatus = (allSuccessSummary "SKU-1").StockStatus ∧
     (allSuccessSummary "SKU-1").Promotion = (allSuccessSummary "SKU-1").Promotion ∧
     (allSuccessSummary "SKU-1").PromotionStatus
       = (allSuccessSummary "SKU-1").PromotionStatus ∧
     (allSuccessSummary "SKU-1").ServiceErrors.Perm
       (allSuccessSummary "SKU-1").ServiceErrors) :=
  ⟨⟨List.Perm.swap ("stock", FetchInventorySimulates) ("price", FetchPriceSimulates)
      [("promotion", FetchPromotionsSimulates)],
    by decide, rfl, rfl⟩,
   aggregate_idempotent ServiceMap ServiceMapStockFirst "SKU-1"
     (allSuccessSummary "SKU-1") (allSuccessSummary "SKU-1") none none
     (List.Perm.swap ("stock", FetchInventorySimulates) ("price", FetchPriceSimulates)
       [("promotion", FetchPromotionsSimulates)])
     (by decide) rfl rfl⟩

/-- C10. The unchecked type assertions on SUCCESS outcomes never panic for
the shipped registry: every round completes (`isSome`), because every
outcome passes the dynamic-type check its key's assertion performs
(price → float64, stock → int, promotion → string). -/
theorem type_assertions_never_panic (registry : List (String × ServiceFn))
    (pid : String) (hperm : registry.Perm ServiceMap) :
    (FanOutAndAggregate registry pid).isSome ∧
    (roundOutcomes registry pid).all assertOK = true := by
  have hall := roundOutcomes_assertOK registry pid hperm
  obtain ⟨s, hs⟩ := Option.isSome_iff_exists.mp
    (aggregateFold_isSome (roundOutcomes registry pid) (initSummary pid) hall)
  constructor
  · unfold FanOutAndAggregate
    rw [hs]
    rfl
  · exact List.all_eq_true.mpr hall

/-- Witness for C10 at the shipped registry order. -/
theorem type_assertions_never_panic_witness :
    ServiceMap.Perm ServiceMap ∧
    ((FanOutAndAggregate ServiceMap "SKU-1").isSome ∧
     (roundOutcomes ServiceMap "SKU-1").all assertOK = true) :=
  ⟨List.Perm.refl ServiceMap,
   type_assertions_never_panic ServiceMap "SKU-1" (List.Perm.refl ServiceMap)⟩

end QuickShip
